import Mathlib

/-!
A verification development for the `yaffshiv` YAFFS filesystem extractor
(`yaffshiv.py`).  The definitions below are a shallow embedding of the
Python source: byte strings become `List Nat`, the mixin byte reader
becomes explicit `(buffer, offset)` threading, fallible reads
(`struct.unpack` on a short slice) become `Option`, dictionaries become
insertion-ordered association lists, and the streaming `next_entry`
generator becomes a fuel-indexed step function.
-/

set_option maxRecDepth 20000

/-- Python `bytes`: a list of byte values. -/
abbrev Bytes := List Nat

/-- Endianness marker (`YAFFS.LITTLE_ENDIAN = "<"`, `YAFFS.BIG_ENDIAN = ">"`). -/
inductive Endian
  | little
  | big
deriving DecidableEq

/-- Python slice `data[off : off + len]`: out-of-range parts are simply absent. -/
def pyslice (data : Bytes) (off len : Nat) : Bytes :=
  (data.drop off).take len

/-- `struct.unpack("<L" | ">L")` of a four-byte string. -/
def decode32 (e : Endian) (bs : Bytes) : Nat :=
  match e, bs with
  | .little, [a, b, c, d] => a + 256 * b + 65536 * c + 16777216 * d
  | .big, [a, b, c, d] => d + 256 * c + 65536 * b + 16777216 * a
  | _, _ => 0

/-- `struct.unpack("<H" | ">H")` of a two-byte string. -/
def decode16 (e : Endian) (bs : Bytes) : Nat :=
  match e, bs with
  | .little, [a, b] => a + 256 * b
  | .big, [a, b] => b + 256 * a
  | _, _ => 0

/-- `YAFFS.read_long`: unpack 4 bytes at `off`.  `struct.unpack` raises
(`none` here) when the slice `data[off:off+4]` is shorter than 4 bytes. -/
def read_long (e : Endian) (data : Bytes) (off : Nat) : Option Nat :=
  if off + 4 ≤ data.length then some (decode32 e (pyslice data off 4)) else none

/-- `YAFFS.read_short`: unpack 2 bytes at `off`; fails on a short slice. -/
def read_short (e : Endian) (data : Bytes) (off : Nat) : Option Nat :=
  if off + 2 ≤ data.length then some (decode16 e (pyslice data off 2)) else none

/-- `YAFFS.read_next(4)` (non-raw): the unpacked value together with the
advanced cursor (`self.offset += size`). -/
def read_next4 (e : Endian) (data : Bytes) (off : Nat) : Option (Nat × Nat) :=
  (read_long e data off).map (fun v => (v, off + 4))

/-- `YAFFS.read_next(2)` (non-raw). -/
def read_next2 (e : Endian) (data : Bytes) (off : Nat) : Option (Nat × Nat) :=
  (read_short e data off).map (fun v => (v, off + 2))

/-- `YAFFS.read_next(size, raw=True)` and any `size ∉ {2,4}`: a raw slice.
Python slicing never fails: past-the-end reads return a short (possibly
empty) byte string, while the cursor still advances by `size`. -/
def read_next_raw (data : Bytes) (off size : Nat) : Bytes × Nat :=
  (pyslice data off size, off + size)

/-- `YAFFS.null_terminate_string`: keep everything before the first NUL. -/
def null_terminate_string (s : Bytes) : Bytes :=
  s.takeWhile (fun b => b ≠ 0)

/-- Global configuration (`YAFFSConfig`), geometry fields only. -/
structure YAFFSConfig where
  endianess : Endian
  page_size : Nat
  spare_size : Nat
  ecclayout : Bool
deriving DecidableEq

def YAFFS_MAX_NAME_LENGTH : Nat := 255 - 2
def YAFFS_MAX_ALIAS_LENGTH : Nat := 159

def YAFFS_OBJECT_TYPE_UNKNOWN : Nat := 0
def YAFFS_OBJECT_TYPE_FILE : Nat := 1
def YAFFS_OBJECT_TYPE_SYMLINK : Nat := 2
def YAFFS_OBJECT_TYPE_DIRECTORY : Nat := 3
def YAFFS_OBJECT_TYPE_HARDLINK : Nat := 4
def YAFFS_OBJECT_TYPE_SPECIAL : Nat := 5

/-- `YAFFSSpare`: decoded spare data. -/
structure YAFFSSpare where
  chunk_id : Nat
  obj_id : Nat
deriving DecidableEq

/-- `YAFFSSpare.__init__`: skip 2 junk bytes when the ECC layout is off,
then read `chunk_id` and `obj_id` (u32 each). -/
def YAFFSSpare.parse (data : Bytes) (cfg : YAFFSConfig) : Option YAFFSSpare := do
  let o0 := if ¬ cfg.ecclayout then 2 else 0
  let (chunk, o1) ← read_next4 cfg.endianess data o0
  let (obj, _) ← read_next4 cfg.endianess data o1
  return ⟨chunk, obj⟩

/-- The YAFFS file-size rule computed at the end of `YAFFSEntry.__init__`
(lines 336-342). -/
def calc_file_size (file_size_low file_size_high : Nat) : Nat :=
  if file_size_high ≠ 0xFFFFFFFF then
    file_size_low ||| (file_size_high <<< 32)
  else if file_size_low ≠ 0xFFFFFFFF then
    file_size_low
  else 0

/-- All fields `YAFFSEntry.__init__` decodes from the header page, in the
source's read order. -/
structure YAFFSHeader where
  yaffs_obj_type : Nat
  parent_obj_id : Nat
  sum_no_longer_used : Nat
  name : Bytes
  yst_mode : Nat
  yst_uid : Nat
  yst_gid : Nat
  yst_atime : Nat
  yst_mtime : Nat
  yst_ctime : Nat
  file_size_low : Nat
  equiv_id : Nat
  «alias» : Bytes
  yst_rdev : Nat
  win_ctime_1 : Nat
  win_ctime_2 : Nat
  win_atime_1 : Nat
  win_atime_2 : Nat
  win_mtime_1 : Nat
  win_mtime_2 : Nat
  inband_shadowed_obj_id : Nat
  inband_is_shrink : Nat
  file_size_high : Nat
  reserved : Bytes
  shadows_obj : Nat
  is_shrink : Nat
  file_size : Nat
deriving DecidableEq

/-- The page-decoding part of `YAFFSEntry.__init__`: sequential `read_next`
calls over the header page with an internal cursor starting at 0.  The
cursor positions are statically determined by the fixed field widths, so
the reads land at the offsets below (they match the header table of the
YAFFS on-disk format):

  obj_type raw4 @0, parent u32 @4, sum u16 @8, name raw254 @10,
  junk u32 @264, mode @268, uid @272, gid @276, atime @280, mtime @284,
  ctime @288, file_size_low @292, equiv_id @296, alias raw160 @300,
  rdev @460, six WinCE u32 @464..484, inband_shadowed @488,
  inband_is_shrink @492, file_size_high @496, reserved raw1 @500,
  shadows_obj @501, is_shrink @505 — final extent 509.

Raw reads never fail; a u32/u16 read raises `struct.error` exactly when
its extent `off + width` exceeds the page length.  The read extents are
monotonically increasing with the largest unpacked extent 509, so the
whole chain succeeds exactly when the page holds at least 509 bytes. -/
def parse_header (page : Bytes) (cfg : YAFFSConfig) : Option YAFFSHeader :=
  if 509 ≤ page.length then
    let u32 : Nat → Nat := fun off => decode32 cfg.endianess (pyslice page off 4)
    let fsl := u32 292
    let fsh := u32 496
    some { yaffs_obj_type := u32 0
           parent_obj_id := u32 4
           sum_no_longer_used := decode16 cfg.endianess (pyslice page 8 2)
           name := null_terminate_string (pyslice page 10 (YAFFS_MAX_NAME_LENGTH + 1))
           yst_mode := u32 268
           yst_uid := u32 272
           yst_gid := u32 276
           yst_atime := u32 280
           yst_mtime := u32 284
           yst_ctime := u32 288
           file_size_low := fsl
           equiv_id := u32 296
           «alias» := null_terminate_string (pyslice page 300 (YAFFS_MAX_ALIAS_LENGTH + 1))
           yst_rdev := u32 460
           win_ctime_1 := u32 464
           win_ctime_2 := u32 468
           win_atime_1 := u32 472
           win_atime_2 := u32 476
           win_mtime_1 := u32 480
           win_mtime_2 := u32 484
           inband_shadowed_obj_id := u32 488
           inband_is_shrink := u32 492
           file_size_high := fsh
           reserved := pyslice page 500 1
           shadows_obj := u32 501
           is_shrink := u32 505
           file_size := calc_file_size fsl fsh }
  else none

/-- `YAFFSEntry`: the decoded header together with its spare and the
accumulated file data (`self.file_data = b''` on construction). -/
structure YAFFSEntry extends YAFFSHeader where
  spare : YAFFSSpare
  file_data : Bytes
deriving DecidableEq

/-- `self.yaffs_obj_id = self.spare.obj_id`. -/
def YAFFSEntry.yaffs_obj_id (e : YAFFSEntry) : Nat := e.spare.obj_id

/-- `YAFFSEntry.__init__` as a whole: decode the page, decode the spare,
start with empty `file_data`. -/
def YAFFSEntry.parse (page spare : Bytes) (cfg : YAFFSConfig) : Option YAFFSEntry :=
  (parse_header page cfg).bind fun h =>
    (YAFFSSpare.parse spare cfg).map fun sp =>
      { toYAFFSHeader := h, spare := sp, file_data := [] }

/-- `string.printable` as a byte set: digits, letters, punctuation and the
whitespace characters space, tab, linefeed, carriage return, vertical tab
and form feed — i.e. `0x20..0x7e` together with `0x09..0x0d`. -/
def printable_byte (b : Nat) : Bool :=
  (0x20 ≤ b && b ≤ 0x7e) || (0x09 ≤ b && b ≤ 0x0d)

/-- The sanity check at the top of `next_entry`: an empty name is accepted,
and a non-empty name must consist of printable bytes only. -/
def name_ok (nm : Bytes) : Bool :=
  nm.isEmpty || nm.all printable_byte

/-- The fatal exceptions `next_entry` can raise. -/
inductive ParseError
  | struct_error
  | corrupt_name (obj_id : Nat) (name : Bytes)
  | oversize_file (name : Bytes)
deriving DecidableEq

/-- Outcome of one `next_entry` iteration. -/
inductive StepResult
  | done
  | ok (e : YAFFSEntry) (new_offset : Nat)
  | error (err : ParseError)
  | out_of_fuel
deriving DecidableEq

/-- The file-data loop of `next_entry` (lines 385-394): while bytes remain,
read one page+spare; if the page holds fewer bytes than remain, append it
all, else append the first `bytes_remaining` bytes and stop.  The Python
loop has no structural measure (a page read past the end of the image
returns `b''` and decrements nothing), so it is indexed by fuel; `none`
means the fuel ran out before the loop finished. -/
def read_file_data (data : Bytes) (cfg : YAFFSConfig) :
    Nat → Nat → Nat → Bytes → Option (Bytes × Nat)
  | 0, off, bytes_remaining, acc =>
      if bytes_remaining = 0 then some (acc, off) else none
  | fuel + 1, off, bytes_remaining, acc =>
      if bytes_remaining = 0 then some (acc, off)
      else
        let d := pyslice data off cfg.page_size
        let off2 := off + cfg.page_size + cfg.spare_size
        if d.length < bytes_remaining then
          read_file_data data cfg fuel off2 (bytes_remaining - d.length) (acc ++ d)
        else
          some (acc ++ d.take bytes_remaining, off2)

/-- One iteration of `YAFFSParser.next_entry` starting at `offset`
(lines 365-396): read a page and its spare, decode the object header,
sanity-check the name, and — whenever `file_size > 0`, regardless of the
object type — check the size against the bytes left and consume data
pages.  `data.length` is `self.data_len`; the size guard subtracts the
cursor as Python integers, hence the cast through `Int`. -/
def next_entry (data : Bytes) (cfg : YAFFSConfig) (offset fuel : Nat) : StepResult :=
  if offset < data.length then
    match YAFFSEntry.parse (pyslice data offset cfg.page_size)
        (pyslice data (offset + cfg.page_size) cfg.spare_size) cfg with
    | none => .error .struct_error
    | some obj_hdr =>
      if name_ok obj_hdr.name then
        if 0 < obj_hdr.file_size then
          if (data.length : Int) -
              ((offset + cfg.page_size + cfg.spare_size : Nat) : Int) <
              (obj_hdr.file_size : Int) then
            .error (.oversize_file obj_hdr.name)
          else
            match read_file_data data cfg fuel
                (offset + cfg.page_size + cfg.spare_size) obj_hdr.file_size [] with
            | some (fd, off2) => .ok { obj_hdr with file_data := fd } off2
            | none => .out_of_fuel
        else .ok obj_hdr (offset + cfg.page_size + cfg.spare_size)
      else .error (.corrupt_name obj_hdr.yaffs_obj_id obj_hdr.name)
  else .done

/-! ### Python dictionaries

`file_paths` and `file_entries` are Python dicts keyed by `obj_id`.  A
dict is modelled as an insertion-ordered association list: lookup finds
the unique binding, insertion updates an existing key in place and
appends a new key at the end. -/

/-- `d[k]` / `k in d`. -/
def dict_lookup {α : Type} : List (Nat × α) → Nat → Option α
  | [], _ => none
  | (k, v) :: t, key => if k = key then some v else dict_lookup t key

/-- `d[k] = v`. -/
def dict_set {α : Type} : List (Nat × α) → Nat → α → List (Nat × α)
  | [], key, val => [(key, val)]
  | (k, v) :: t, key, val =>
      if k = key then (key, val) :: t else (k, v) :: dict_set t key val

/-- `os.path.join` on POSIX byte paths: an absolute second component
replaces the first; otherwise insert a `/` separator unless the first
component is empty or already ends with one. -/
def os_path_join (a b : Bytes) : Bytes :=
  if b.head? = some 0x2f then b
  else if a = [] then b
  else if a.getLast? = some 0x2f then a ++ b
  else a ++ [0x2f] ++ b

/-- The two maps `YAFFSExtractor` builds while parsing. -/
structure ExtractorState where
  file_paths : List (Nat × Bytes)
  file_entries : List (Nat × YAFFSEntry)
deriving DecidableEq

/-- One iteration of the loop body of `YAFFSExtractor.parse`
(lines 411-421, per yielded entry): compute the path from the parent's
path when the parent is known, otherwise fall back to the bare name
(warning unless the parent id is 1), then store path and entry under
`entry.yaffs_obj_id`.  The returned `Bool` records whether the
orphan-parent warning was emitted. -/
def parse_insert (st : ExtractorState) (entry : YAFFSEntry) : ExtractorState × Bool :=
  match dict_lookup st.file_paths entry.parent_obj_id with
  | some parent_path =>
      ({ file_paths := dict_set st.file_paths entry.yaffs_obj_id
            (os_path_join parent_path entry.name)
         file_entries := dict_set st.file_entries entry.yaffs_obj_id entry }, false)
  | none =>
      ({ file_paths := dict_set st.file_paths entry.yaffs_obj_id entry.name
         file_entries := dict_set st.file_entries entry.yaffs_obj_id entry },
       entry.parent_obj_id ≠ 1)

/-- `YAFFSExtractor.parse` at the record level: fold the insert step over
the sequence of entries the parser yields, starting from the fresh maps
of `YAFFSExtractor.__init__`. -/
def extractor_parse (entries : List YAFFSEntry) : ExtractorState :=
  entries.foldl (fun st e => (parse_insert st e).1) ⟨[], []⟩

/-- The return value of `YAFFSExtractor.parse`: `len(self.file_entries)`. -/
def extractor_parse_count (entries : List YAFFSEntry) : Nat :=
  (extractor_parse entries).file_entries.length

/-! ### Pass 3 of `YAFFSExtractor.extract`: link creation -/

/-- Pass 3 of `YAFFSExtractor.extract` (lines 500-519), modelled purely:
iterate over `file_paths`; look the entry up (a Python `dict[key]`
subscript raises `KeyError` when the key is missing — modelled as
`Except.error`); for symlinks the `os.symlink` call sits inside
`try/except` so the pass continues either way (the OS call is external
and modelled as succeeding); for hard links the source computes
`self.file_paths[entry.equiv_id]` BEFORE entering the `try` block, so a
missing `equiv_id` key raises an uncaught `KeyError`.  Returns the link
counter on completion. -/
def link_pass (paths : List (Nat × Bytes)) (entries : List (Nat × YAFFSEntry))
    (all_paths : List (Nat × Bytes)) (outdir : Bytes) : Except Nat Nat :=
  match paths with
  | [] => .ok 0
  | (entry_id, file_path) :: rest =>
    match dict_lookup entries entry_id with
    | none => .error entry_id
    | some entry =>
      if file_path ≠ [] then
        if entry.yaffs_obj_type = YAFFS_OBJECT_TYPE_SYMLINK then
          (link_pass rest entries all_paths outdir).map (· + 1)
        else if entry.yaffs_obj_type = YAFFS_OBJECT_TYPE_HARDLINK then
          match dict_lookup all_paths entry.equiv_id with
          | none => .error entry.equiv_id
          | some _ => (link_pass rest entries all_paths outdir).map (· + 1)
        else link_pass rest entries all_paths outdir
      else link_pass rest entries all_paths outdir

/-! ### Geometry auto-detection (`YAFFSConfig._auto_detect_settings`) -/

def SPARE_START_BIG_ENDIAN_ECC : Bytes := [0x00, 0x00, 0x10, 0x00]
def SPARE_START_BIG_ENDIAN_NO_ECC : Bytes := [0xFF, 0xFF, 0x00, 0x00, 0x10, 0x00]
def SPARE_START_LITTLE_ENDIAN_ECC : Bytes := [0x00, 0x10, 0x00, 0x00]
def SPARE_START_LITTLE_ENDIAN_NO_ECC : Bytes := [0xFF, 0xFF, 0x00, 0x10, 0x00, 0x00]

/-- `self.sample_data[p:].startswith(sig)`. -/
def starts_with_at (sig sample : Bytes) (p : Nat) : Bool :=
  sig.isPrefixOf (sample.drop p)

def valid_page_sizes : List Nat := [512, 1024, 2048, 4096, 8192, 16384]

/-- `page_size / 32` for each valid page size. -/
def valid_spare_sizes : List Nat := [16, 32, 64, 128, 256, 512]

/-- The page-size/endianness/ECC loop of `_auto_detect_settings`
(lines 117-143): try each candidate page size in ascending order and the
four spare-start signatures in source order; first match wins.  Reaching
the `-1` sentinel raises (here `none`). -/
def find_page_settings (sample : Bytes) : List Nat → Option (Nat × Endian × Bool)
  | [] => none
  | p :: rest =>
    if starts_with_at SPARE_START_LITTLE_ENDIAN_ECC sample p then
      some (p, .little, true)
    else if starts_with_at SPARE_START_LITTLE_ENDIAN_NO_ECC sample p then
      some (p, .little, false)
    else if starts_with_at SPARE_START_BIG_ENDIAN_ECC sample p then
      some (p, .big, true)
    else if starts_with_at SPARE_START_BIG_ENDIAN_NO_ECC sample p then
      some (p, .big, false)
    else find_page_settings sample rest

/-- `s.index(pat)`: index of the first occurrence of `pat` as a substring,
`none` (a raised `ValueError`) when there is no occurrence. -/
def str_index (pat : Bytes) : Bytes → Option Nat
  | [] => if pat.isEmpty then some 0 else none
  | b :: rest =>
      if pat.isPrefixOf (b :: rest) then some 0
      else (str_index pat rest).map (· + 1)

/-- `YAFFSConfig._auto_detect_settings` (lines 81-178): detect page size,
endianness and ECC layout from the spare-start signatures, then locate
the end of the spare area with the synthesised
`sample[p+offset : p+offset+4] + b"\xFF\xFF"` trailer signature and
sanity-check the resulting spare size.  (In Python a trailer match less
than 4 bytes in would make `index(...) - 4` negative and fail the sanity
check; ℕ-truncation to `0..3` fails the same check, so the behaviour
agrees.)  Returns the detected configuration, `none` on any of the three
detection failures. -/
def auto_detect_settings (sample : Bytes) : Option YAFFSConfig :=
  (find_page_settings sample valid_page_sizes).bind fun (p, endian, ecc) =>
    let offset := if ¬ ecc then 6 else 4
    let spare_sig := pyslice sample (p + offset) 4 ++ [0xFF, 0xFF]
    (str_index spare_sig (sample.drop p)).bind fun idx =>
      let spare := idx - 4
      if spare ∈ valid_spare_sizes then
        some { endianess := endian, page_size := p, spare_size := spare,
               ecclayout := ecc }
      else none

/-! ### A synthesised minimal image for the detection round trip

Test fixture, not source code: a two-object mkyaffs-style image laid out
per the on-disk format — a header chunk for a directory (obj 0x101,
parent 1) followed by the start of a header page for a child of 0x101.
The spare area begins with the `0x00001000` marker word and the object id,
as in the images `_auto_detect_settings`'s signatures were derived from,
and is zero-padded like the ECC bytes of a fresh image. -/

/-- Big- or little-endian u32 encoding (test fixture helper). -/
def enc32 (e : Endian) (n : Nat) : Bytes :=
  match e with
  | .little => [n % 256, n / 256 % 256, n / 65536 % 256, n / 16777216 % 256]
  | .big => [n / 16777216 % 256, n / 65536 % 256, n / 256 % 256, n % 256]

/-- A name field: the name bytes, zero-padded to 254 bytes. -/
def name_field (nm : Bytes) : Bytes :=
  nm ++ List.replicate (254 - nm.length) 0

/-- The 509-byte header record of the synthesised image (per the on-disk
format table). -/
def header_record (e : Endian) (obj_type parent : Nat) (nm : Bytes) : Bytes :=
  enc32 e obj_type ++ enc32 e parent ++ [0xFF, 0xFF] ++ name_field nm ++
  enc32 e 0xFFFFFFFF ++
  enc32 e 0x1ED ++ enc32 e 0 ++ enc32 e 0 ++             -- mode, uid, gid
  enc32 e 0 ++ enc32 e 0 ++ enc32 e 0 ++                 -- atime, mtime, ctime
  enc32 e 0xFFFFFFFF ++ enc32 e 0 ++                     -- file_size_low, equiv
  List.replicate 160 0 ++                                -- alias
  enc32 e 0 ++                                           -- rdev
  List.replicate 24 0 ++                                 -- WinCE times
  enc32 e 0 ++ enc32 e 0 ++ enc32 e 0xFFFFFFFF ++        -- inband*, fs_high
  [0] ++ enc32 e 0 ++ enc32 e 0                          -- reserved, shadows, is_shrink

/-- A header page for the synthesised image: the 509-byte header record
zero-padded to the page size. -/
def mk_header_page (e : Endian) (page_size obj_type parent : Nat) (nm : Bytes) : Bytes :=
  header_record e obj_type parent nm ++ List.replicate (page_size - 509) 0

/-- The spare area of the first chunk: two `0xFF` filler bytes when the
ECC layout is off, the `0x00001000` marker, the object id `0x101`, and
zero padding up to the spare size. -/
def mk_spare (e : Endian) (ecc : Bool) (spare_size : Nat) : Bytes :=
  let body := (if ecc then [] else [0xFF, 0xFF]) ++ enc32 e 0x1000 ++ enc32 e 0x101
  body ++ List.replicate (spare_size - body.length) 0

/-- The synthesised minimal image: the directory header chunk followed by
the first ten bytes of the next header page (a file owned by 0x101, whose
`parent_obj_id` field and the `0xFFFF` checksum slot form the trailer the
spare-size search looks for). -/
def mk_image (page_size : Nat) (e : Endian) (ecc : Bool) : Bytes :=
  mk_header_page e page_size YAFFS_OBJECT_TYPE_DIRECTORY 1 [0x64, 0x69, 0x72] ++
  mk_spare e ecc (page_size / 32) ++
  (enc32 e YAFFS_OBJECT_TYPE_FILE ++ enc32 e 0x101 ++ [0xFF, 0xFF])

/-! ### Concrete fixtures used by witnesses and counterexamples -/

/-- A placeholder entry for total extraction from `Option`/`StepResult`. -/
def default_entry : YAFFSEntry :=
  { yaffs_obj_type := 0, parent_obj_id := 0, sum_no_longer_used := 0, name := []
    yst_mode := 0, yst_uid := 0, yst_gid := 0, yst_atime := 0, yst_mtime := 0
    yst_ctime := 0, file_size_low := 0, equiv_id := 0, «alias» := [], yst_rdev := 0
    win_ctime_1 := 0, win_ctime_2 := 0, win_atime_1 := 0, win_atime_2 := 0
    win_mtime_1 := 0, win_mtime_2 := 0, inband_shadowed_obj_id := 0
    inband_is_shrink := 0, file_size_high := 0, reserved := [], shadows_obj := 0
    is_shrink := 0, file_size := 0, spare := ⟨0, 0⟩, file_data := [] }

/-- The entry carried by an `ok` step, `default_entry` otherwise. -/
def step_entry (r : StepResult) : YAFFSEntry :=
  match r with
  | .ok e _ => e
  | _ => default_entry

/-- A 512/16 little-endian ECC configuration for the concrete test images. -/
def cfg512 : YAFFSConfig := ⟨.little, 512, 16, true⟩

/-! ### C2 -/

/-- C2: for every decoded header, the computed `file_size` equals
`(file_size_high <<< 32) ||| file_size_low` when `file_size_high` is not
`0xFFFFFFFF`; else `file_size_low` when that is not `0xFFFFFFFF`; else 0.
(`calc_file_size` is exactly the computation of `YAFFSEntry.__init__`
lines 336-342, and `parse_header` assigns
`file_size := calc_file_size file_size_low file_size_high`.) -/
theorem claim_c2 (low high : Nat) :
    calc_file_size low high =
      if high ≠ 0xFFFFFFFF then (high <<< 32) ||| low
      else if low ≠ 0xFFFFFFFF then low
      else 0 := by
  unfold calc_file_size
  split_ifs <;> simp [Nat.lor_comm]

/-! ### C9 -/

/-- C9 counterexample: a raw byte-slice read whose requested extent
(4 bytes at offset 0) goes past the end of the 2-byte buffer does NOT
fail: it returns the short 2-byte result while the cursor still advances
by the full 4 requested bytes.  This refutes the claim that every read
past the end fails with an error. -/
theorem claim_c9_counterexample :
    read_next_raw [5, 6] 0 4 = ([5, 6], 4) ∧ ([5, 6] : Bytes).length < 0 + 4 := by
  constructor
  · rfl
  · decide

/-- C9 amended: the u32/u16 readers advance the cursor by exactly the
amount read and fail (a `struct.error`) exactly when the requested extent
passes the end of the data; raw byte-slice reads never fail — they return
the bytes actually available (`min size (length - off)`) and advance the
cursor by the full requested size. -/
theorem claim_c9_amended (e : Endian) (data : Bytes) (off size : Nat) :
    ((read_next4 e data off).isSome ↔ off + 4 ≤ data.length) ∧
    (∀ v o2, read_next4 e data off = some (v, o2) → o2 = off + 4) ∧
    ((read_next2 e data off).isSome ↔ off + 2 ≤ data.length) ∧
    (∀ v o2, read_next2 e data off = some (v, o2) → o2 = off + 2) ∧
    (read_next_raw data off size).2 = off + size ∧
    (read_next_raw data off size).1.length = min size (data.length - off) := by
  refine ⟨?_, ?_, ?_, ?_, rfl, ?_⟩
  · simp [read_next4, read_long]
  · intro v o2 h
    simp only [read_next4, read_long, Option.map_eq_some'] at h
    obtain ⟨a, ha, hv⟩ := h
    exact (Prod.mk.injEq .. ▸ hv).2.symm ▸ rfl
  · simp [read_next2, read_short]
  · intro v o2 h
    simp only [read_next2, read_short, Option.map_eq_some'] at h
    obtain ⟨a, ha, hv⟩ := h
    exact (Prod.mk.injEq .. ▸ hv).2.symm ▸ rfl
  · simp [read_next_raw, pyslice]

/-- C9 amended, witnessed at a concrete input: reading a u32 from a
4-byte buffer succeeds and leaves the cursor at 4. -/
theorem claim_c9_amended_witness :
    (read_next4 Endian.little [1, 2, 3, 4] 0).isSome ∧ (4 : Nat) = 0 + 4 :=
  ⟨(claim_c9_amended Endian.little [1, 2, 3, 4] 0 0).1.mpr (by decide),
   (claim_c9_amended Endian.little [1, 2, 3, 4] 0 0).2.1 0x04030201 4 (by decide)⟩

/-! ### C6 -/

/-- A hard-link entry (object 0x301) whose `equiv_id` 0x300 has no path. -/
def c6entry : YAFFSEntry :=
  { default_entry with yaffs_obj_type := YAFFS_OBJECT_TYPE_HARDLINK
                       equiv_id := 0x300
                       spare := ⟨0, 0x301⟩ }

/-- C6: a dangling hard link is NOT non-fatal.  For a single HARDLINK
entry whose `equiv_id` (0x300) is missing from the paths map, pass 3 of
`extract` evaluates `self.file_paths[entry.equiv_id]` before entering its
`try` block, so the whole pass aborts with an uncaught `KeyError` on
0x300 instead of warning and continuing as the claim states. -/
theorem claim_c6 :
    link_pass [(0x301, [0x62])] [(0x301, c6entry)] [(0x301, [0x62])] [] =
      .error 0x300 := by
  rfl

/-! ### Dictionary lemmas -/

theorem dict_lookup_set_self {α : Type} (d : List (Nat × α)) (k : Nat) (v : α) :
    dict_lookup (dict_set d k v) k = some v := by
  induction d with
  | nil => simp [dict_set, dict_lookup]
  | cons hd t ih =>
    obtain ⟨k', v'⟩ := hd
    by_cases h : k' = k
    · simp [dict_set, h, dict_lookup]
    · simp [dict_set, h, dict_lookup, ih]

theorem dict_lookup_set_ne {α : Type} (d : List (Nat × α)) (k key : Nat) (v : α)
    (h : k ≠ key) : dict_lookup (dict_set d k v) key = dict_lookup d key := by
  induction d with
  | nil => simp [dict_set, dict_lookup, h]
  | cons hd t ih =>
    obtain ⟨k', v'⟩ := hd
    by_cases hk : k' = k
    · subst hk
      simp [dict_set, dict_lookup, h]
    · simp only [dict_set, if_neg hk]
      by_cases hk2 : k' = key
      · simp [dict_lookup, hk2]
      · simp [dict_lookup, hk2, ih]

/-! ### C4 -/

/-- C4: at insert time, when the parent's path is known the new path is
`join(paths[parent], name)` and no orphan warning is emitted; otherwise
the path is the bare `name` and the warning is emitted exactly when
`parent_obj_id ≠ 1`. -/
theorem claim_c4 (st : ExtractorState) (entry : YAFFSEntry) :
    (∀ pp, dict_lookup st.file_paths entry.parent_obj_id = some pp →
      dict_lookup (parse_insert st entry).1.file_paths entry.yaffs_obj_id =
        some (os_path_join pp entry.name) ∧
      (parse_insert st entry).2 = false) ∧
    (dict_lookup st.file_paths entry.parent_obj_id = none →
      dict_lookup (parse_insert st entry).1.file_paths entry.yaffs_obj_id =
        some entry.name ∧
      ((parse_insert st entry).2 = true ↔ entry.parent_obj_id ≠ 1)) := by
  constructor
  · intro pp hpp
    simp [parse_insert, hpp, dict_lookup_set_self]
  · intro hnone
    simp [parse_insert, hnone, dict_lookup_set_self]

/-- An entry with an unknown parent (id 5), object id 7. -/
def c4entry : YAFFSEntry :=
  { default_entry with parent_obj_id := 5, name := [0x66], spare := ⟨0, 7⟩ }

/-- C4 witness: both branches exercised concretely — a known parent path
produces the joined path with no warning; an unknown non-root parent
produces the bare name and the warning. -/
theorem claim_c4_witness :
    (dict_lookup (parse_insert ⟨[(5, [0x61])], []⟩ c4entry).1.file_paths 7 =
        some (os_path_join [0x61] [0x66]) ∧
      (parse_insert ⟨[(5, [0x61])], []⟩ c4entry).2 = false) ∧
    (dict_lookup (parse_insert ⟨[], []⟩ c4entry).1.file_paths 7 = some [0x66] ∧
      ((parse_insert ⟨[], []⟩ c4entry).2 = true ↔ c4entry.parent_obj_id ≠ 1)) :=
  ⟨(claim_c4 ⟨[(5, [0x61])], []⟩ c4entry).1 [0x61] (by decide),
   (claim_c4 ⟨[], []⟩ c4entry).2 (by decide)⟩

/-! ### C3 -/

/-- The parse fold from an arbitrary starting state: the entry stored for
`oid` is the last record with that object id, falling back to the prior
binding when there is none. -/
theorem extractor_fold_lookup (rs : List YAFFSEntry) (st : ExtractorState) (oid : Nat) :
    dict_lookup
        (rs.foldl (fun st e => (parse_insert st e).1) st).file_entries oid =
      match (rs.filter (fun r => r.yaffs_obj_id == oid)).getLast? with
      | some r => some r
      | none => dict_lookup st.file_entries oid := by
  induction rs generalizing st with
  | nil => simp
  | cons r rest ih =>
    have hstep : ∀ st : ExtractorState,
        dict_lookup ((parse_insert st r).1).file_entries oid =
          if r.yaffs_obj_id = oid then some r
          else dict_lookup st.file_entries oid := by
      intro st
      by_cases h : r.yaffs_obj_id = oid
      · subst h
        cases hl : dict_lookup st.file_paths r.parent_obj_id <;>
          simp [parse_insert, hl, dict_lookup_set_self]
      · cases hl : dict_lookup st.file_paths r.parent_obj_id <;>
          simp [parse_insert, hl, dict_lookup_set_ne _ _ _ _ h, h]
    rw [List.foldl_cons, ih]
    by_cases h : r.yaffs_obj_id = oid
    · simp only [List.filter_cons, h, beq_self_eq_true, if_pos]
      cases hf : (rest.filter (fun r => r.yaffs_obj_id == oid)).getLast? with
      | some x =>
        cases hrest : rest.filter (fun r => r.yaffs_obj_id == oid) with
        | nil => simp [hrest] at hf
        | cons y ys => simp [hrest, List.getLast?_cons_cons, hrest ▸ hf]
      | none =>
        cases hrest : rest.filter (fun r => r.yaffs_obj_id == oid) with
        | nil => simp [hrest, hstep, h]
        | cons y ys => simp [hrest] at hf
    · have hbeq : (r.yaffs_obj_id == oid) = false := by
        simp [h]
      simp only [List.filter_cons, hbeq, if_neg, Bool.false_eq_true,
        not_false_iff, hstep, h, if_false]

/-- C3: last write wins — after the parse fold, the entry stored for any
object id is exactly the latest record in on-disk order carrying that id
(the whole record, `file_data` included; `none` on both sides when the id
never occurs). -/
theorem claim_c3 (rs : List YAFFSEntry) (oid : Nat) :
    dict_lookup (extractor_parse rs).file_entries oid =
      (rs.filter (fun r => r.yaffs_obj_id == oid)).getLast? := by
  rw [extractor_parse, extractor_fold_lookup]
  cases (rs.filter (fun r => r.yaffs_obj_id == oid)).getLast? <;>
    simp [dict_lookup]

/-! ### C10 -/

/-- Effect of a Python dict insertion on the key list: unchanged when the
key is present, appended otherwise. -/
def insert_key (l : List Nat) (k : Nat) : List Nat :=
  if k ∈ l then l else l ++ [k]

theorem dict_set_keys {α : Type} (d : List (Nat × α)) (k : Nat) (v : α) :
    (dict_set d k v).map Prod.fst = insert_key (d.map Prod.fst) k := by
  induction d with
  | nil => simp [dict_set, insert_key]
  | cons hd t ih =>
    obtain ⟨k', v'⟩ := hd
    by_cases h : k' = k
    · subst h
      simp [dict_set, insert_key]
    · by_cases hmem : k ∈ t.map Prod.fst
      · simp [dict_set, h, ih, insert_key, hmem, Ne.symm h]
      · simp [dict_set, h, ih, insert_key, hmem, Ne.symm h]

theorem mem_insert_key (l : List Nat) (k x : Nat) :
    x ∈ insert_key l k ↔ x ∈ l ∨ x = k := by
  unfold insert_key
  by_cases h : k ∈ l
  · simp only [if_pos h]
    constructor
    · exact Or.inl
    · rintro (hx | rfl)
      · exact hx
      · exact h
  · simp [if_neg h]

theorem nodup_insert_key (l : List Nat) (k : Nat) (h : l.Nodup) :
    (insert_key l k).Nodup := by
  unfold insert_key
  by_cases hk : k ∈ l
  · simpa [hk]
  · simp [hk, List.nodup_append, h, List.disjoint_singleton]

/-- Both maps' key lists evolve by the same `insert_key` fold. -/
theorem extractor_fold_keys (rs : List YAFFSEntry) (st : ExtractorState) :
    ((rs.foldl (fun st e => (parse_insert st e).1) st).file_paths.map Prod.fst =
      rs.foldl (fun ks r => insert_key ks r.yaffs_obj_id)
        (st.file_paths.map Prod.fst)) ∧
    ((rs.foldl (fun st e => (parse_insert st e).1) st).file_entries.map Prod.fst =
      rs.foldl (fun ks r => insert_key ks r.yaffs_obj_id)
        (st.file_entries.map Prod.fst)) := by
  induction rs generalizing st with
  | nil => exact ⟨rfl, rfl⟩
  | cons r rest ih =>
    have hkeys :
        ((parse_insert st r).1.file_paths.map Prod.fst =
          insert_key (st.file_paths.map Prod.fst) r.yaffs_obj_id) ∧
        ((parse_insert st r).1.file_entries.map Prod.fst =
          insert_key (st.file_entries.map Prod.fst) r.yaffs_obj_id) := by
      cases hl : dict_lookup st.file_paths r.parent_obj_id <;>
        simp [parse_insert, hl, dict_set_keys]
    obtain ⟨ihp, ihe⟩ := ih (parse_insert st r).1
    constructor
    · simp only [List.foldl_cons]
      rw [ihp, hkeys.1]
    · simp only [List.foldl_cons]
      rw [ihe, hkeys.2]

/-- The `insert_key` fold accumulates exactly the set of keys seen, with
no duplicates. -/
theorem insert_key_fold_spec (l : List Nat) :
    ∀ acc : List Nat, acc.Nodup →
      (l.foldl insert_key acc).Nodup ∧
      (l.foldl insert_key acc).toFinset = acc.toFinset ∪ l.toFinset := by
  induction l with
  | nil => intro acc h; simpa using h
  | cons a rest ih =>
    intro acc h
    obtain ⟨h1, h2⟩ := ih (insert_key acc a) (nodup_insert_key acc a h)
    refine ⟨h1, ?_⟩
    rw [List.foldl_cons] at *
    rw [h2]
    ext x
    simp [List.mem_toFinset, mem_insert_key]
    tauto

/-- C10: after the parse fold the paths map and the entries map have
exactly the same key list, and the value `YAFFSExtractor.parse` returns
(`len(file_entries)`) is the number of distinct object ids among the
parsed records. -/
theorem claim_c10 (rs : List YAFFSEntry) :
    (extractor_parse rs).file_paths.map Prod.fst =
      (extractor_parse rs).file_entries.map Prod.fst ∧
    extractor_parse_count rs =
      (rs.map (fun r => r.yaffs_obj_id)).toFinset.card := by
  obtain ⟨hp, he⟩ := extractor_fold_keys rs ⟨[], []⟩
  have hp2 : (extractor_parse rs).file_paths.map Prod.fst =
      rs.foldl (fun ks r => insert_key ks r.yaffs_obj_id) [] := hp
  have he2 : (extractor_parse rs).file_entries.map Prod.fst =
      rs.foldl (fun ks r => insert_key ks r.yaffs_obj_id) [] := he
  have hfold : (rs.map (fun r => r.yaffs_obj_id)).foldl insert_key [] =
      rs.foldl (fun ks r => insert_key ks r.yaffs_obj_id) [] :=
    List.foldl_map _ _ _ _
  obtain ⟨hnd, hfs⟩ := insert_key_fold_spec (rs.map (fun r => r.yaffs_obj_id)) []
    (by simp)
  refine ⟨by rw [hp2, he2], ?_⟩
  calc extractor_parse_count rs
      = ((extractor_parse rs).file_entries.map Prod.fst).length := by
        simp [extractor_parse_count]
    _ = ((rs.map (fun r => r.yaffs_obj_id)).foldl insert_key []).length := by
        rw [he2, hfold]
    _ = ((rs.map (fun r => r.yaffs_obj_id)).foldl insert_key []).toFinset.card :=
        (List.toFinset_card_of_nodup hnd).symm
    _ = (rs.map (fun r => r.yaffs_obj_id)).toFinset.card := by
        rw [hfs]
        simp

/-! ### Parser lemmas -/

/-- A freshly parsed entry always carries empty `file_data`. -/
theorem YAFFSEntry.parse_file_data (page spare : Bytes) (cfg : YAFFSConfig)
    (e : YAFFSEntry) (h : YAFFSEntry.parse page spare cfg = some e) :
    e.file_data = [] := by
  simp only [YAFFSEntry.parse, Option.bind_eq_some, Option.map_eq_some'] at h
  obtain ⟨hh, _, sp, _, rfl⟩ := h
  rfl

/-- When the data loop finishes it has appended exactly `bytes_remaining`
bytes, and it has consumed at least one page+spare whenever
`bytes_remaining` was positive. -/
theorem read_file_data_ok (data : Bytes) (cfg : YAFFSConfig) :
    ∀ fuel off rem acc fd off2,
      read_file_data data cfg fuel off rem acc = some (fd, off2) →
      fd.length = acc.length + rem ∧
      (0 < rem → off + cfg.page_size + cfg.spare_size ≤ off2) ∧
      (rem = 0 → off2 = off) := by
  intro fuel
  induction fuel with
  | zero =>
    intro off rem acc fd off2 h
    by_cases hrem : rem = 0
    · simp only [read_file_data, if_pos hrem, Option.some.injEq, Prod.mk.injEq] at h
      obtain ⟨rfl, rfl⟩ := h
      exact ⟨by omega, by omega, fun _ => rfl⟩
    · simp [read_file_data, hrem] at h
  | succ n ih =>
    intro off rem acc fd off2 h
    by_cases hrem : rem = 0
    · simp only [read_file_data, if_pos hrem, Option.some.injEq, Prod.mk.injEq] at h
      obtain ⟨rfl, rfl⟩ := h
      exact ⟨by omega, by omega, fun _ => rfl⟩
    · simp only [read_file_data, if_neg hrem] at h
      by_cases hlt : (pyslice data off cfg.page_size).length < rem
      · rw [if_pos hlt] at h
        obtain ⟨h1, h2, _⟩ := ih _ _ _ _ _ h
        refine ⟨by simp at h1; omega, fun _ => ?_, fun h0 => absurd h0 hrem⟩
        have := h2 (by omega)
        omega
      · rw [if_neg hlt] at h
        simp only [Option.some.injEq, Prod.mk.injEq] at h
        obtain ⟨rfl, rfl⟩ := h
        refine ⟨?_, fun _ => by omega, fun h0 => absurd h0 hrem⟩
        simp [List.length_take]
        omega

/-! ### C1 -/

/-- A 512/16 image whose first chunk is a DIRECTORY header that
nevertheless declares `file_size = 4`, followed by one data chunk of
sevens. -/
def c1page : Bytes :=
  enc32 .little YAFFS_OBJECT_TYPE_DIRECTORY ++ List.replicate 288 0 ++
    [4, 0, 0, 0] ++ List.replicate 216 0

def c1img : Bytes :=
  c1page ++ List.replicate 16 0 ++ List.replicate 512 7 ++ List.replicate 16 0

def c1entry : YAFFSEntry := step_entry (next_entry c1img cfg512 0 1)

/-- C1 counterexample: the parser consumes a data page for a DIRECTORY
record.  The claim states data pages are consumed exactly when
`obj_type == FILE` and `file_size > 0`; the code only tests
`file_size > 0` (line 379), so this DIRECTORY header with `file_size = 4`
consumes a following page (the cursor advances by two chunks and four
data bytes are accumulated). -/
theorem claim_c1_counterexample :
    next_entry c1img cfg512 0 1 = .ok c1entry 1056 ∧
    c1entry.yaffs_obj_type = YAFFS_OBJECT_TYPE_DIRECTORY ∧
    c1entry.yaffs_obj_type ≠ YAFFS_OBJECT_TYPE_FILE ∧
    c1entry.file_data.length = 4 ∧
    1056 = 0 + 2 * (cfg512.page_size + cfg512.spare_size) := by
  refine ⟨by decide, by decide, by decide, by decide, by decide⟩

/-- C1 amended: for every record the parser yields, data pages are
consumed exactly when `file_size > 0` — regardless of the object type —
and on yield the accumulated `file_data` always holds exactly
`file_size` bytes; when `file_size = 0` the cursor moves by exactly one
chunk (no data page), and when `file_size > 0` it moves by at least two
(header plus data pages). -/
theorem claim_c1_amended (data : Bytes) (cfg : YAFFSConfig) (offset fuel : Nat)
    (e : YAFFSEntry) (off2 : Nat)
    (h : next_entry data cfg offset fuel = .ok e off2) :
    e.file_data.length = e.file_size ∧
    (e.file_size = 0 → off2 = offset + cfg.page_size + cfg.spare_size) ∧
    (0 < e.file_size →
      offset + 2 * (cfg.page_size + cfg.spare_size) ≤ off2) := by
  unfold next_entry at h
  split at h
  · split at h
    · cases h
    · rename_i obj hp
      by_cases hname : name_ok obj.name = true
      · rw [if_pos hname] at h
        by_cases hfs : 0 < obj.file_size
        · rw [if_pos hfs] at h
          by_cases hover : (data.length : Int) -
              ((offset + cfg.page_size + cfg.spare_size : Nat) : Int) <
              (obj.file_size : Int)
          · rw [if_pos hover] at h
            cases h
          · rw [if_neg hover] at h
            split at h
            · rename_i fd o2 hloop
              cases h
              obtain ⟨h1, h2, _⟩ := read_file_data_ok data cfg _ _ _ _ _ _ hloop
              have hlen : fd.length = obj.file_size := by simpa using h1
              have hle := h2 hfs
              refine ⟨hlen, fun h0 => ?_, fun _ => by omega⟩
              have h0' : obj.file_size = 0 := h0
              omega
            · cases h
        · rw [if_neg hfs] at h
          cases h
          have hfd := YAFFSEntry.parse_file_data _ _ _ _ hp
          refine ⟨?_, fun _ => rfl, fun hpos => absurd hpos hfs⟩
          simp [hfd]
          omega
      · rw [if_neg hname] at h
        cases h
  · cases h

/-- C1 amended, witnessed on the concrete DIRECTORY image: the yielded
record's `file_data` length equals its `file_size` and the cursor moved
by two chunks. -/
theorem claim_c1_amended_witness :
    c1entry.file_data.length = c1entry.file_size ∧
    (c1entry.file_size = 0 → 1056 = 0 + cfg512.page_size + cfg512.spare_size) ∧
    (0 < c1entry.file_size →
      0 + 2 * (cfg512.page_size + cfg512.spare_size) ≤ 1056) :=
  claim_c1_amended c1img cfg512 0 1 c1entry 1056 (by decide)

/-! ### C5 -/

/-- C5: for a header whose name passes the sanity check, one parser step
raises the oversize-file error exactly when the computed `file_size`
exceeds the bytes remaining in the image after the header chunk
(ℕ-truncated subtraction; in particular a zero `file_size` never
triggers it, matching the `file_size > 0` guard around the check). -/
theorem claim_c5 (data : Bytes) (cfg : YAFFSConfig) (offset fuel : Nat)
    (e : YAFFSEntry)
    (hoff : offset < data.length)
    (hparse : YAFFSEntry.parse (pyslice data offset cfg.page_size)
        (pyslice data (offset + cfg.page_size) cfg.spare_size) cfg = some e)
    (hname : name_ok e.name = true) :
    next_entry data cfg offset fuel = .error (.oversize_file e.name) ↔
      data.length - (offset + cfg.page_size + cfg.spare_size) < e.file_size := by
  unfold next_entry
  rw [if_pos hoff, hparse]
  simp only []
  rw [if_pos hname]
  by_cases hfs : 0 < e.file_size
  · rw [if_pos hfs]
    by_cases hover : (data.length : Int) -
        ((offset + cfg.page_size + cfg.spare_size : Nat) : Int) <
        (e.file_size : Int)
    · rw [if_pos hover]
      constructor
      · intro _
        omega
      · intro _
        rfl
    · rw [if_neg hover]
      cases hloop : read_file_data data cfg fuel
          (offset + cfg.page_size + cfg.spare_size) e.file_size [] with
      | none =>
        constructor
        · intro hcontra
          cases hcontra
        · intro hlt
          omega
      | some pr =>
        obtain ⟨fd, o2⟩ := pr
        constructor
        · intro hcontra
          cases hcontra
        · intro hlt
          omega
  · rw [if_neg hfs]
    constructor
    · intro hcontra
      cases hcontra
    · intro hlt
      omega

/-- A 512/16 image that is a single header chunk declaring
`file_size = 513` with nothing after it. -/
def c5page : Bytes :=
  List.replicate 292 0 ++ [1, 2, 0, 0] ++ List.replicate 216 0

def c5img : Bytes := c5page ++ List.replicate 16 0

def c5entry : YAFFSEntry :=
  (YAFFSEntry.parse (pyslice c5img 0 cfg512.page_size)
    (pyslice c5img (0 + cfg512.page_size) cfg512.spare_size) cfg512).getD
    default_entry

/-- C5 witness: on the concrete truncated image (513 declared bytes, none
remaining) the step fails with the oversize error. -/
theorem claim_c5_witness :
    next_entry c5img cfg512 0 1 = .error (.oversize_file c5entry.name) :=
  (claim_c5 c5img cfg512 0 1 c5entry (by decide) (by decide) (by decide)).mpr
    (by decide)

/-! ### C7 -/

/-- Once the cursor is past the end of the image while bytes remain to be
read, every page read returns `b''`, `bytes_remaining` never decreases,
and the data loop never finishes — for any amount of fuel. -/
theorem read_file_data_stuck (data : Bytes) (cfg : YAFFSConfig) :
    ∀ fuel off rem acc, data.length ≤ off → 0 < rem →
      read_file_data data cfg fuel off rem acc = none := by
  intro fuel
  induction fuel with
  | zero =>
    intro off rem acc hoff hrem
    simp [read_file_data, Nat.pos_iff_ne_zero.mp hrem]
  | succ n ih =>
    intro off rem acc hoff hrem
    have hd : pyslice data off cfg.page_size = [] := by
      unfold pyslice
      rw [List.drop_eq_nil_of_le hoff, List.take_nil]
    rw [read_file_data, if_neg (Nat.pos_iff_ne_zero.mp hrem), hd]
    simp only [List.length_nil, List.append_nil, Nat.sub_zero]
    rw [if_pos hrem]
    exact ih _ _ _ (by omega) hrem

/-- One unfolding of the data loop when the page read comes back short of
the bytes still needed. -/
theorem read_file_data_step (data : Bytes) (cfg : YAFFSConfig)
    (fuel off rem : Nat) (acc : Bytes) (hrem : rem ≠ 0)
    (hlt : (pyslice data off cfg.page_size).length < rem) :
    read_file_data data cfg (fuel + 1) off rem acc =
      read_file_data data cfg fuel (off + cfg.page_size + cfg.spare_size)
        (rem - (pyslice data off cfg.page_size).length)
        (acc ++ pyslice data off cfg.page_size) := by
  rw [read_file_data, if_neg hrem, if_pos hlt]

/-- A 512/16 image: one header chunk declaring `file_size = 513` followed
by exactly 513 data bytes.  The oversize guard passes (513 bytes do
remain), but the loop consumes 512 + 16 bytes per iteration while
crediting at most 512, so the second data read starts past the end of the
image. -/
def c7img : Bytes := c5page ++ List.replicate 16 0 ++ List.replicate 513 0

def c7entry : YAFFSEntry :=
  (YAFFSEntry.parse (pyslice c7img 0 cfg512.page_size)
    (pyslice c7img (0 + cfg512.page_size) cfg512.spare_size) cfg512).getD
    default_entry

/-- C7: the log parser does NOT terminate on every input.  On `c7img` the
parser's data loop reads empty pages forever (`bytes_remaining` stuck at
1), so the step function runs out of fuel for EVERY fuel bound — the
Python `while bytes_remaining:` loop never exits and no record is ever
yielded. -/
theorem claim_c7 (fuel : Nat) : next_entry c7img cfg512 0 fuel = .out_of_fuel := by
  have hparse : YAFFSEntry.parse (pyslice c7img 0 cfg512.page_size)
      (pyslice c7img (0 + cfg512.page_size) cfg512.spare_size) cfg512 =
      some c7entry := by decide
  have hname : name_ok c7entry.name = true := by decide
  have hloop : ∀ f, read_file_data c7img cfg512 f
      (0 + cfg512.page_size + cfg512.spare_size) c7entry.file_size [] = none := by
    intro f
    cases f with
    | zero => decide
    | succ n =>
      have hfs : c7entry.file_size = 513 := by decide
      rw [hfs, read_file_data_step c7img cfg512 n _ _ _ (by decide) (by decide)]
      apply read_file_data_stuck
      · decide
      · decide
  unfold next_entry
  rw [if_pos (by decide : (0:Nat) < c7img.length), hparse]
  simp only []
  rw [if_pos hname, if_pos (by decide : 0 < c7entry.file_size),
    if_neg (by decide : ¬ ((c7img.length : Int) -
      ((0 + cfg512.page_size + cfg512.spare_size : Nat) : Int) <
      (c7entry.file_size : Int))), hloop fuel]

/-! ### C8 -/

theorem header_record_length (e : Endian) (t par : Nat) :
    (header_record e t par [0x64, 0x69, 0x72]).length = 509 := by
  cases e <;> simp [header_record, name_field, enc32]

theorem mk_header_page_length (e : Endian) (p t par : Nat) (h : 509 ≤ p) :
    (mk_header_page e p t par [0x64, 0x69, 0x72]).length = p := by
  unfold mk_header_page
  rw [List.length_append, header_record_length, List.length_replicate]
  omega

theorem mk_spare_length (e : Endian) (ecc : Bool) (s : Nat) (h : 10 ≤ s) :
    (mk_spare e ecc s).length = s := by
  cases ecc <;> cases e <;> simp [mk_spare, enc32] <;> omega

/-- Dropping `q ≤ p` bytes from the header page lands in its zero
padding. -/
theorem mk_header_page_drop (e : Endian) (p t par q : Nat)
    (h509 : 509 ≤ q) (hle : q ≤ p) :
    (mk_header_page e p t par [0x64, 0x69, 0x72]).drop q =
      List.replicate (p - q) 0 := by
  unfold mk_header_page
  rw [List.drop_append_eq_append_drop,
    List.drop_eq_nil_of_le (by rw [header_record_length]; omega),
    header_record_length, List.nil_append, List.drop_replicate]
  congr 1
  omega

/-- Dropping exactly one page from the synthesised image lands at the
start of the first spare area. -/
theorem mk_image_drop_p (p : Nat) (e : Endian) (ecc : Bool) (h : 509 ≤ p)
    (hs : 10 ≤ p / 32) :
    (mk_image p e ecc).drop p =
      mk_spare e ecc (p / 32) ++
        (enc32 e YAFFS_OBJECT_TYPE_FILE ++ enc32 e 0x101 ++ [0xFF, 0xFF]) := by
  have hpage := mk_header_page_length e p YAFFS_OBJECT_TYPE_DIRECTORY 1 h
  have hsp := mk_spare_length e ecc (p / 32) hs
  unfold mk_image
  rw [List.drop_append_eq_append_drop, List.drop_append_eq_append_drop,
    List.drop_eq_nil_of_le (le_of_eq hpage), List.nil_append, hpage,
    List.length_append, hpage, hsp, Nat.sub_self, List.drop_zero,
    show p - (p + p / 32) = 0 by omega, List.drop_zero]

/-- Dropping fewer than one page from the synthesised image lands in the
zero padding of the header page. -/
theorem mk_image_drop_before (p q : Nat) (e : Endian) (ecc : Bool)
    (h509 : 509 ≤ q) (hle : q ≤ p) (hs : 10 ≤ p / 32) :
    (mk_image p e ecc).drop q =
      List.replicate (p - q) 0 ++
        (mk_spare e ecc (p / 32) ++
          (enc32 e YAFFS_OBJECT_TYPE_FILE ++ enc32 e 0x101 ++ [0xFF, 0xFF])) := by
  have hpage := mk_header_page_length e p YAFFS_OBJECT_TYPE_DIRECTORY 1 (by omega)
  have hsp := mk_spare_length e ecc (p / 32) hs
  unfold mk_image
  rw [List.drop_append_eq_append_drop, List.drop_append_eq_append_drop,
    mk_header_page_drop e p _ _ q h509 hle, hpage, List.length_append, hpage,
    hsp, show q - p = 0 by omega, show q - (p + p / 32) = 0 by omega,
    List.drop_zero, List.drop_zero, List.append_assoc]

/-- None of the four spare-start signatures can match inside a run of at
least three zero bytes. -/
theorem no_sig_zeros (k : Nat) (hk : 3 ≤ k) (rest : Bytes) :
    SPARE_START_LITTLE_ENDIAN_ECC.isPrefixOf (List.replicate k 0 ++ rest) = false ∧
    SPARE_START_LITTLE_ENDIAN_NO_ECC.isPrefixOf (List.replicate k 0 ++ rest) = false ∧
    SPARE_START_BIG_ENDIAN_ECC.isPrefixOf (List.replicate k 0 ++ rest) = false ∧
    SPARE_START_BIG_ENDIAN_NO_ECC.isPrefixOf (List.replicate k 0 ++ rest) = false := by
  obtain ⟨m, rfl⟩ := Nat.exists_eq_add_of_le hk
  rw [List.replicate_add]
  exact ⟨rfl, rfl, rfl, rfl⟩

/-- All four signatures fail at a candidate page size `q` that lands in
the header padding at least three bytes before the true page end. -/
theorem all_sigs_false (p q : Nat) (e : Endian) (ecc : Bool)
    (h509 : 509 ≤ q) (hq : q + 3 ≤ p) (hs : 10 ≤ p / 32) :
    starts_with_at SPARE_START_LITTLE_ENDIAN_ECC (mk_image p e ecc) q = false ∧
    starts_with_at SPARE_START_LITTLE_ENDIAN_NO_ECC (mk_image p e ecc) q = false ∧
    starts_with_at SPARE_START_BIG_ENDIAN_ECC (mk_image p e ecc) q = false ∧
    starts_with_at SPARE_START_BIG_ENDIAN_NO_ECC (mk_image p e ecc) q = false := by
  have hd := mk_image_drop_before p q e ecc h509 (by omega) hs
  obtain ⟨n1, n2, n3, n4⟩ := no_sig_zeros (p - q) (by omega) _
  refine ⟨?_, ?_, ?_, ?_⟩ <;>
    (unfold starts_with_at; rw [hd])
  · exact n1
  · exact n2
  · exact n3
  · exact n4

/-- `find_page_settings` skips a candidate at which no signature matches. -/
theorem find_skip (sample : Bytes) (q : Nat) (rest : List Nat)
    (h1 : starts_with_at SPARE_START_LITTLE_ENDIAN_ECC sample q = false)
    (h2 : starts_with_at SPARE_START_LITTLE_ENDIAN_NO_ECC sample q = false)
    (h3 : starts_with_at SPARE_START_BIG_ENDIAN_ECC sample q = false)
    (h4 : starts_with_at SPARE_START_BIG_ENDIAN_NO_ECC sample q = false) :
    find_page_settings sample (q :: rest) = find_page_settings sample rest := by
  simp [find_page_settings, h1, h2, h3, h4]

theorem find_hit_le_ecc (sample : Bytes) (q : Nat) (rest : List Nat)
    (h1 : starts_with_at SPARE_START_LITTLE_ENDIAN_ECC sample q = true) :
    find_page_settings sample (q :: rest) = some (q, .little, true) := by
  simp [find_page_settings, h1]

theorem find_hit_le_noecc (sample : Bytes) (q : Nat) (rest : List Nat)
    (h1 : starts_with_at SPARE_START_LITTLE_ENDIAN_ECC sample q = false)
    (h2 : starts_with_at SPARE_START_LITTLE_ENDIAN_NO_ECC sample q = true) :
    find_page_settings sample (q :: rest) = some (q, .little, false) := by
  simp [find_page_settings, h1, h2]

theorem find_hit_be_ecc (sample : Bytes) (q : Nat) (rest : List Nat)
    (h1 : starts_with_at SPARE_START_LITTLE_ENDIAN_ECC sample q = false)
    (h2 : starts_with_at SPARE_START_LITTLE_ENDIAN_NO_ECC sample q = false)
    (h3 : starts_with_at SPARE_START_BIG_ENDIAN_ECC sample q = true) :
    find_page_settings sample (q :: rest) = some (q, .big, true) := by
  simp [find_page_settings, h1, h2, h3]

theorem find_hit_be_noecc (sample : Bytes) (q : Nat) (rest : List Nat)
    (h1 : starts_with_at SPARE_START_LITTLE_ENDIAN_ECC sample q = false)
    (h2 : starts_with_at SPARE_START_LITTLE_ENDIAN_NO_ECC sample q = false)
    (h3 : starts_with_at SPARE_START_BIG_ENDIAN_ECC sample q = false)
    (h4 : starts_with_at SPARE_START_BIG_ENDIAN_NO_ECC sample q = true) :
    find_page_settings sample (q :: rest) = some (q, .big, false) := by
  simp [find_page_settings, h1, h2, h3, h4]

/-- Assembly: once the page loop has succeeded, the spare-size search over
the (short) spare-and-next-header region completes the detected
configuration. -/
theorem detect_mk (p : Nat) (e : Endian) (ecc : Bool)
    (hfind : find_page_settings (mk_image p e ecc) valid_page_sizes =
      some (p, e, ecc))
    (h509 : 509 ≤ p) (hs : 10 ≤ p / 32)
    (hsig : pyslice (mk_image p e ecc) (p + (if ¬ ecc then 6 else 4)) 4 =
      enc32 e 0x101)
    (hidx : str_index (enc32 e 0x101 ++ [0xFF, 0xFF])
      (mk_spare e ecc (p / 32) ++
        (enc32 e YAFFS_OBJECT_TYPE_FILE ++ enc32 e 0x101 ++ [0xFF, 0xFF])) =
      some (p / 32 + 4))
    (hmem : p / 32 ∈ valid_spare_sizes) :
    auto_detect_settings (mk_image p e ecc) =
      some { endianess := e, page_size := p, spare_size := p / 32,
             ecclayout := ecc } := by
  have hdrop := mk_image_drop_p p e ecc h509 hs
  unfold auto_detect_settings
  rw [hfind]
  simp only [Option.bind_eq_bind, Option.some_bind]
  rw [hsig, hdrop, hidx]
  simp only [Option.some_bind]
  rw [Nat.add_sub_cancel, if_pos hmem]

/-- At the true page size the matching signature fires (and the ones the
source checks before it do not). -/
theorem find_hit_mk (p : Nat) (e : Endian) (ecc : Bool) (rest : List Nat)
    (h509 : 509 ≤ p) (hs : 10 ≤ p / 32) :
    find_page_settings (mk_image p e ecc) (p :: rest) = some (p, e, ecc) := by
  have hA := mk_image_drop_p p e ecc h509 hs
  cases e <;> cases ecc
  · apply find_hit_le_noecc <;> (unfold starts_with_at; rw [hA]) <;> rfl
  · apply find_hit_le_ecc
    unfold starts_with_at
    rw [hA]
    rfl
  · apply find_hit_be_noecc <;> (unfold starts_with_at; rw [hA]) <;> rfl
  · apply find_hit_be_ecc <;> (unfold starts_with_at; rw [hA]) <;> rfl

/-- The page-size loop detects exactly the geometry the image was built
with, for every valid page size. -/
theorem find_mk (p : Nat) (hp : p ∈ valid_page_sizes) (e : Endian) (ecc : Bool) :
    find_page_settings (mk_image p e ecc) valid_page_sizes = some (p, e, ecc) := by
  fin_cases hp
  · rw [show valid_page_sizes = 512 :: [1024, 2048, 4096, 8192, 16384] from rfl]
    exact find_hit_mk 512 e ecc _ (by norm_num) (by norm_num)
  · have k1 := all_sigs_false 1024 512 e ecc (by norm_num) (by norm_num) (by norm_num)
    rw [show valid_page_sizes = 512 :: 1024 :: [2048, 4096, 8192, 16384] from rfl,
      find_skip _ _ _ k1.1 k1.2.1 k1.2.2.1 k1.2.2.2]
    exact find_hit_mk 1024 e ecc _ (by norm_num) (by norm_num)
  · have k1 := all_sigs_false 2048 512 e ecc (by norm_num) (by norm_num) (by norm_num)
    have k2 := all_sigs_false 2048 1024 e ecc (by norm_num) (by norm_num) (by norm_num)
    rw [show valid_page_sizes = 512 :: 1024 :: 2048 :: [4096, 8192, 16384] from rfl,
      find_skip _ _ _ k1.1 k1.2.1 k1.2.2.1 k1.2.2.2,
      find_skip _ _ _ k2.1 k2.2.1 k2.2.2.1 k2.2.2.2]
    exact find_hit_mk 2048 e ecc _ (by norm_num) (by norm_num)
  · have k1 := all_sigs_false 4096 512 e ecc (by norm_num) (by norm_num) (by norm_num)
    have k2 := all_sigs_false 4096 1024 e ecc (by norm_num) (by norm_num) (by norm_num)
    have k3 := all_sigs_false 4096 2048 e ecc (by norm_num) (by norm_num) (by norm_num)
    rw [show valid_page_sizes = 512 :: 1024 :: 2048 :: 4096 :: [8192, 16384] from rfl,
      find_skip _ _ _ k1.1 k1.2.1 k1.2.2.1 k1.2.2.2,
      find_skip _ _ _ k2.1 k2.2.1 k2.2.2.1 k2.2.2.2,
      find_skip _ _ _ k3.1 k3.2.1 k3.2.2.1 k3.2.2.2]
    exact find_hit_mk 4096 e ecc _ (by norm_num) (by norm_num)
  · have k1 := all_sigs_false 8192 512 e ecc (by norm_num) (by norm_num) (by norm_num)
    have k2 := all_sigs_false 8192 1024 e ecc (by norm_num) (by norm_num) (by norm_num)
    have k3 := all_sigs_false 8192 2048 e ecc (by norm_num) (by norm_num) (by norm_num)
    have k4 := all_sigs_false 8192 4096 e ecc (by norm_num) (by norm_num) (by norm_num)
    rw [show valid_page_sizes = 512 :: 1024 :: 2048 :: 4096 :: 8192 :: [16384] from rfl,
      find_skip _ _ _ k1.1 k1.2.1 k1.2.2.1 k1.2.2.2,
      find_skip _ _ _ k2.1 k2.2.1 k2.2.2.1 k2.2.2.2,
      find_skip _ _ _ k3.1 k3.2.1 k3.2.2.1 k3.2.2.2,
      find_skip _ _ _ k4.1 k4.2.1 k4.2.2.1 k4.2.2.2]
    exact find_hit_mk 8192 e ecc _ (by norm_num) (by norm_num)
  · have k1 := all_sigs_false 16384 512 e ecc (by norm_num) (by norm_num) (by norm_num)
    have k2 := all_sigs_false 16384 1024 e ecc (by norm_num) (by norm_num) (by norm_num)
    have k3 := all_sigs_false 16384 2048 e ecc (by norm_num) (by norm_num) (by norm_num)
    have k4 := all_sigs_false 16384 4096 e ecc (by norm_num) (by norm_num) (by norm_num)
    have k5 := all_sigs_false 16384 8192 e ecc (by norm_num) (by norm_num) (by norm_num)
    rw [show valid_page_sizes = 512 :: 1024 :: 2048 :: 4096 :: 8192 :: 16384 :: [] from rfl,
      find_skip _ _ _ k1.1 k1.2.1 k1.2.2.1 k1.2.2.2,
      find_skip _ _ _ k2.1 k2.2.1 k2.2.2.1 k2.2.2.2,
      find_skip _ _ _ k3.1 k3.2.1 k3.2.2.1 k3.2.2.2,
      find_skip _ _ _ k4.1 k4.2.1 k4.2.2.1 k4.2.2.2,
      find_skip _ _ _ k5.1 k5.2.1 k5.2.2.1 k5.2.2.2]
    exact find_hit_mk 16384 e ecc _ (by norm_num) (by norm_num)

/-- The synthesised trailer signature read at `p + offset` is the encoded
object id 0x101. -/
theorem mk_image_sig (p : Nat) (e : Endian) (ecc : Bool)
    (h509 : 509 ≤ p) (hs : 10 ≤ p / 32) :
    pyslice (mk_image p e ecc) (p + (if ¬ ecc then 6 else 4)) 4 =
      enc32 e 0x101 := by
  have hA := mk_image_drop_p p e ecc h509 hs
  unfold pyslice
  rw [← List.drop_drop, hA]
  cases e <;> cases ecc <;> rfl

/-- C8: for every page size in {512, 1024, 2048, 4096, 8192, 16384},
spare size `page_size / 32`, endianness and ECC layout, running
auto-detection on the synthesised minimal image with that geometry
returns exactly the same page size, spare size, endianness and ECC
layout. -/
theorem claim_c8 (p : Nat) (hp : p ∈ valid_page_sizes) (e : Endian) (ecc : Bool) :
    auto_detect_settings (mk_image p e ecc) =
      some { endianess := e, page_size := p, spare_size := p / 32,
             ecclayout := ecc } := by
  have hfind := find_mk p hp e ecc
  fin_cases hp <;>
    refine detect_mk _ e ecc hfind (by norm_num) (by norm_num)
      (mk_image_sig _ e ecc (by norm_num) (by norm_num)) ?_ (by decide) <;>
    cases e <;> cases ecc <;> decide

/-- C8 witness: the 2048/64 little-endian ECC image round-trips. -/
theorem claim_c8_witness :
    auto_detect_settings (mk_image 2048 .little true) =
      some { endianess := .little, page_size := 2048, spare_size := 2048 / 32,
             ecclayout := true } :=
  claim_c8 2048 (by decide) .little true
